import Mathlib

/-!
Verification development for the key-point annotation tool backend
(Django application). The workflow entities — image batches, images,
batch assignments, annotations and verifications — are shallowly
embedded: each Django model becomes a structure carrying the fields the
workflow logic reads, stored statuses stay the exact string literals of
the source, and each state-changing code path becomes a Lean function on
those structures. Operations that the sources declare (model fields,
unique constraints) but whose request handlers are not part of the
sources are modelled from the specification and are marked as such in
their doc comments.
-/

set_option maxRecDepth 2000

/-- Whether `s` matches one of the status literals in `cs`
(the embedding of a Django `status__in=[...]` filter). -/
def isOneOf (s : String) (cs : List String) : Bool :=
  cs.any (fun c => s == c)

/-- Number of rows of `images` whose status lies in `cs`
(the embedding of `images.filter(status__in=cs).count()`). -/
def countIn (images cs : List String) : Nat :=
  images.countP (fun s => isOneOf s cs)

/-- The `Image` model of `src/backend/images/models.py`: only the
workflow-relevant field is carried. `status` is a plain `CharField`. -/
structure Image where
  status : String
  deriving Repr, DecidableEq

/-- The `IMAGE_STATUS` choices list of the `Image` model, verbatim. -/
def Image.IMAGE_STATUS : List String :=
  ["UPLOADED", "YOLO_PROCESSED", "ASSIGNED", "IN_PROGRESS", "ANNOTATED",
   "SUBMITTED", "UNDER_REVIEW", "APPROVED", "REJECTED", "REQUIRES_REVISION"]

/-- A status write on an `Image` row (`image.status = s; image.save()`).
The model defines no transition guard and Django's `save` validates
neither choices nor transitions, so the write is an unconditional field
assignment. -/
def Image.setStatus (img : Image) (s : String) : Image :=
  { img with status := s }

/-- The source's `Image.can_be_assigned`: assignable iff the status
is `YOLO_PROCESSED` or `REQUIRES_REVISION`. -/
def Image.can_be_assigned (img : Image) : Bool :=
  isOneOf img.status ["YOLO_PROCESSED", "REQUIRES_REVISION"]

/-- The `ImageBatch` model of `src/backend/images/models.py`: the
declared total and the four derived progress counters. -/
structure ImageBatch where
  total_images : Nat
  assigned_count : Nat
  completed_count : Nat
  approved_count : Nat
  rejected_count : Nat
  deriving Repr, DecidableEq

/-- The source's `ImageBatch.update_progress`: recomputes the four
counters from the statuses of the batch's child `Image` rows. -/
def ImageBatch.update_progress (b : ImageBatch) (images : List String) :
    ImageBatch :=
  { b with
    assigned_count := countIn images ["ASSIGNED", "IN_PROGRESS", "ANNOTATED", "SUBMITTED"]
    completed_count := countIn images ["APPROVED", "REJECTED"]
    approved_count := countIn images ["APPROVED"]
    rejected_count := countIn images ["REJECTED"] }

/-- The legacy `UploadBatch` model of `src/backend/images/models.py`:
the stored counters and status read by the YOLO pipeline. -/
structure UploadBatchRec where
  total_files : Nat
  uploaded_files : Nat
  processed_files : Nat
  failed_files : Nat
  status : String
  deriving Repr, DecidableEq

/-- A batch together with the statuses of its child `ImageUpload` rows. -/
structure UploadState where
  batch : UploadBatchRec
  images : List String
  deriving Repr, DecidableEq

/-- Terminal statuses of the legacy `ImageUpload` status field. -/
def terminalUploadStatus (s : String) : Bool :=
  isOneOf s ["completed", "failed", "cancelled"]

/-- All child rows of a batch are in a terminal status. -/
def allChildrenTerminal (images : List String) : Bool :=
  images.all terminalUploadStatus

/-- The success path of `process_image_with_yolo_sync` /
`process_image_with_yolo` (`src/backend/images/tasks.py`): the image at
index `i` goes `processing` then `completed`, `processed_files` is
incremented, and the batch becomes `completed` when
`processed_files + failed_files == total_files`. -/
def taskImageSuccess (st : UploadState) (i : Nat) : UploadState :=
  let images := (st.images.set i "processing").set i "completed"
  let b := { st.batch with processed_files := st.batch.processed_files + 1 }
  let b := if b.processed_files + b.failed_files == b.total_files
           then { b with status := "completed" } else b
  { batch := b, images := images }

/-- The failure path of the same task: the image at index `i` goes
`processing` then `failed` and `failed_files` is incremented; nothing
else on the batch is touched. -/
def taskImageFailure (st : UploadState) (i : Nat) : UploadState :=
  let images := (st.images.set i "processing").set i "failed"
  { batch := { st.batch with failed_files := st.batch.failed_files + 1 }
    images := images }

/-- Retry bound of the Celery task `process_image_with_yolo`
(`@shared_task(bind=True, max_retries=3)`). -/
def max_retries : Nat := 3

/-- The retry delay of `process_image_with_yolo`:
`self.retry(countdown=60 * (self.request.retries + 1))`. -/
def retry_countdown (retries : Nat) : Nat :=
  60 * (retries + 1)

/-- The sequence of delays used before the successive retries. -/
def retryDelays : List Nat :=
  (List.range max_retries).map retry_countdown

/-- Runs of `process_image_with_yolo`, `n` of them, all failing, on the
image at index `i`: each run takes the failure path
(`taskImageFailure`), which is what a `DetectionFailure` inside the task
body triggers before the task re-raises for retry. -/
def attemptsAllFail (st : UploadState) (i : Nat) : Nat → UploadState
  | 0 => st
  | n + 1 => attemptsAllFail (taskImageFailure st i) i n

/-- One iteration of the synchronous loop of `process_batch_with_yolo`
(`src/backend/images/views.py`): the image is handed to
`process_image_with_yolo_sync`, whose success path increments
`processed_files` (marking the batch `completed` when the counters line
up) and leaves the image `completed`, and whose failure path increments
`failed_files` and leaves the image `failed`. Returns the updated batch
row and the image's final status. -/
def syncImageStep (b : UploadBatchRec) (ok : Bool) : UploadBatchRec × String :=
  if ok then
    let b1 := { b with processed_files := b.processed_files + 1 }
    let b2 := if b1.processed_files + b1.failed_files == b1.total_files
              then { b1 with status := "completed" } else b1
    (b2, "completed")
  else
    ({ b with failed_files := b.failed_files + 1 }, "failed")

/-- The synchronous per-image loop of `process_batch_with_yolo` over the
batch's processable images, with `oks` the per-image detection
outcomes. Returns the final batch row and the images' final statuses
in order. -/
def processBatchSyncLoop : UploadBatchRec → List Bool → UploadBatchRec × List String
  | b, [] => (b, [])
  | b, ok :: rest =>
      let step := syncImageStep b ok
      let tail := processBatchSyncLoop step.1 rest
      (tail.1, step.2 :: tail.2)

/-- The `Verification` model of `src/backend/verifications/models.py`:
the identity of the judged annotation (a `OneToOneField`, hence unique
per annotation at the database level), the verifier, and the decision. -/
structure VerificationRow where
  annotation_id : Nat
  verifier_id : Nat
  decision : String
  deriving Repr, DecidableEq

/-- Number of Verification rows held for a given annotation. -/
def verificationCountFor (table : List VerificationRow) (annId : Nat) : Nat :=
  table.countP (fun v => v.annotation_id == annId)

/-- Modelled from the spec: the `decide` operation of the Verification
Decision Engine (spec §4.6). Its request handler is not among the
sources — only the `Verification` model declaration is, whose
one-to-one `annotation` field makes a second row for the same
annotation impossible. Per the spec, `decide` creates exactly one
Verification row, and a second call on the same annotation fails with
`AlreadyVerified`, writing nothing. -/
def decideVerification (table : List VerificationRow) (annId verifierId : Nat)
    (decision : String) : Except String (List VerificationRow) :=
  if table.any (fun v => v.annotation_id == annId) then
    Except.error "AlreadyVerified"
  else
    Except.ok (⟨annId, verifierId, decision⟩ :: table)

/-- The `Annotation` model of `src/backend/annotations/models.py`: the
workflow fields — owning image, `version`, `is_revision`, the
`original_annotation` foreign key (carried here as
`original_annotation_id`), and `status`. Rows are kept newest-first,
mirroring the model's `ordering = [-created_at]`. -/
structure AnnotationRow where
  id : Nat
  image_id : Nat
  version : Nat
  is_revision : Bool
  original_annotation_id : Option Nat
  status : String
  deriving Repr, DecidableEq

/-- The `ANNOTATION_STATUS` choices list of the `Annotation` model. -/
def ANNOTATION_STATUS : List String :=
  ["DRAFT", "COMPLETED", "SUBMITTED", "UNDER_REVIEW", "APPROVED", "REVISION_REQUESTED"]

/-- Non-terminal ("active") annotation statuses per spec §3:
`DRAFT` and `COMPLETED`. -/
def activeStatus (s : String) : Bool :=
  isOneOf s ["DRAFT", "COMPLETED"]

/-- The annotations of one image (`image.annotations.all()`),
newest-first. -/
def annsFor (table : List AnnotationRow) (imageId : Nat) : List AnnotationRow :=
  table.filter (fun a => a.image_id == imageId)

/-- Whether some annotation of the image is in a non-terminal status. -/
def hasActiveFor (table : List AnnotationRow) (imageId : Nat) : Bool :=
  table.any (fun a => a.image_id == imageId && activeStatus a.status)

/-- Number of non-terminal annotations held for the image. -/
def activeCountFor (table : List AnnotationRow) (imageId : Nat) : Nat :=
  table.countP (fun a => a.image_id == imageId && activeStatus a.status)

/-- Largest version number among the image's annotations. -/
def maxVersionFor (table : List AnnotationRow) (imageId : Nat) : Nat :=
  ((annsFor table imageId).map (fun a => a.version)).foldr Nat.max 0

/-- The root id a new revision must reference: the predecessor's own
root when the predecessor is itself a revision, else the predecessor. -/
def rootIdOf (prev : AnnotationRow) : Nat :=
  match prev.original_annotation_id with
  | some r => r
  | none => prev.id

/-- Modelled from the spec: the `submit` operation of the Annotation
Revision Chain (spec §4.5). Its request handler is not among the
sources — only the `Annotation` model declaration is. Per the spec,
`submit` fails with `DuplicateSubmission` when the image already has a
non-terminal annotation, and otherwise creates one annotation with
`version = (prior max version for this image) + 1` whose
`original_annotation` points at the root of the chain (not the
immediate predecessor); the created row is `SUBMITTED`. -/
def submit (table : List AnnotationRow) (imageId newId : Nat) :
    Except String (List AnnotationRow) :=
  if hasActiveFor table imageId then
    Except.error "DuplicateSubmission"
  else
    match (annsFor table imageId).head? with
    | none =>
        Except.ok (⟨newId, imageId, 1, false, none, "SUBMITTED"⟩ :: table)
    | some prev =>
        Except.ok (⟨newId, imageId, maxVersionFor table imageId + 1, true,
          some (rootIdOf prev), "SUBMITTED"⟩ :: table)

/-- Modelled from the spec: the annotation-status write a revision
request performs (decision engine §4.6 marks the judged annotation
`REVISION_REQUESTED`). Rewrites the status of the row with id `annId`. -/
def setAnnotationStatus (table : List AnnotationRow) (annId : Nat) (s : String) :
    List AnnotationRow :=
  table.map (fun a => if a.id == annId then { a with status := s } else a)

/-- Modelled from the spec: one complete revision cycle on an image
(spec §4.5–§4.6): the verifier requests revision of the latest
annotation, which then stops being verifiable, and the annotator
submits a replacement through `submit`. -/
def revisionCycle (table : List AnnotationRow) (imageId newId : Nat) :
    List AnnotationRow :=
  let marked :=
    match (annsFor table imageId).head? with
    | some prev => setAnnotationStatus table prev.id "REVISION_REQUESTED"
    | none => table
  match submit marked imageId newId with
  | Except.ok t' => t'
  | Except.error _ => marked

/-- The annotation table of one image after an initial submission
followed by `n` revision cycles; row ids are allocated 1, 2, 3, …. -/
def chainAfter (imageId : Nat) : Nat → List AnnotationRow
  | 0 =>
      match submit [] imageId 1 with
      | Except.ok t => t
      | Except.error _ => []
  | n + 1 => revisionCycle (chainAfter imageId n) imageId (n + 2)

/-- Closed form of the `k`-th submission's row: the version-1 root for
`k = 1`, a revision pointing at root id 1 for `k ≥ 2`. -/
def chainRow (imageId k : Nat) (s : String) : AnnotationRow :=
  if k ≤ 1 then ⟨1, imageId, 1, false, none, s⟩
  else ⟨k, imageId, k, true, some 1, s⟩

/-- Closed form of the already-superseded part of the chain: rows
`k, k-1, …, 1`, all `REVISION_REQUESTED`. -/
def closedChainTail (imageId : Nat) : Nat → List AnnotationRow
  | 0 => []
  | k + 1 => chainRow imageId (k + 1) "REVISION_REQUESTED" :: closedChainTail imageId k

/-- Closed form of the whole chain after `n` revision cycles: the
newest row is `SUBMITTED`, all others `REVISION_REQUESTED`. -/
def closedChain (imageId n : Nat) : List AnnotationRow :=
  chainRow imageId (n + 1) "SUBMITTED" :: closedChainTail imageId n

/-- The `BatchAssignment` model of `src/backend/annotations/models.py`:
the progress-tracking fields read and written by `update_progress`. -/
structure BatchAssignmentRec where
  images_total : Nat
  images_completed : Nat
  progress_percentage : Rat
  deriving DecidableEq

/-- The source's `BatchAssignment.update_progress`: counts the
assignment's annotations in `SUBMITTED` status into
`images_completed` and, when `images_total > 0`, recomputes
`progress_percentage = (completed / images_total) * 100`. -/
def BatchAssignmentRec.update_progress (a : BatchAssignmentRec)
    (annStatuses : List String) : BatchAssignmentRec :=
  let completed := countIn annStatuses ["SUBMITTED"]
  let a1 := { a with images_completed := completed }
  if 0 < a1.images_total then
    { a1 with progress_percentage := ((completed : Rat) / (a1.images_total : Rat)) * 100 }
  else a1

/-- Modelled from the spec: a submission inside the assignment (spec
§4.4–§4.5; the submission handler is not among the sources). It adds
one `SUBMITTED` annotation row and immediately recomputes progress
through the source's `BatchAssignment.update_progress`. -/
def submitAndRecompute (a : BatchAssignmentRec) (annStatuses : List String) :
    BatchAssignmentRec :=
  BatchAssignmentRec.update_progress a ("SUBMITTED" :: annStatuses)

/-- The uploaded file of a request to `upload_image`
(`src/backend/images/views.py`): name, byte size and MIME content type. -/
structure UploadedFile where
  name : String
  size : Nat
  content_type : String
  deriving Repr, DecidableEq

/-- The request fields `upload_image` reads (`batch_id`, `file_id`, and
the file); a missing field is `none`. -/
structure UploadReq where
  batch_id : Option String
  file_id : Option String
  file : Option UploadedFile
  deriving Repr, DecidableEq

/-- The server state `upload_image` can touch: whether the referenced
batch exists, its row (counters and status), the number of files
written to storage, and the number of `ImageUpload` rows. -/
structure UploadEnv where
  batchExists : Bool
  batch : UploadBatchRec
  storedFiles : Nat
  imageRecords : Nat
  deriving Repr, DecidableEq

/-- The MIME types `upload_image` accepts. -/
def allowed_types : List String :=
  ["image/jpeg", "image/png", "image/webp", "image/bmp"]

/-- The view `upload_image` from `src/backend/images/views.py`: rejects missing
fields, then files over 10 MB, then disallowed content types, each with
HTTP 400 before any storage write; then resolves the batch (404 when
absent), saves the file, creates the `ImageUpload` row, and bumps the
batch's `uploaded_files` (moving a `pending` batch to `uploading`).
Returns the HTTP status and the resulting server state. -/
def upload_image (env : UploadEnv) (req : UploadReq) : Nat × UploadEnv :=
  match req.batch_id, req.file_id, req.file with
  | some _, some _, some f =>
      if 10 * 1024 * 1024 < f.size then (400, env)
      else if !(isOneOf f.content_type allowed_types) then (400, env)
      else if !env.batchExists then (404, env)
      else
        let b := { env.batch with uploaded_files := env.batch.uploaded_files + 1 }
        let b := if b.status == "pending" then { b with status := "uploading" } else b
        (200, { env with
          batch := b
          storedFiles := env.storedFiles + 1
          imageRecords := env.imageRecords + 1 })
  | _, _, _ => (400, env)

theorem countIn_nil (cs : List String) : countIn [] cs = 0 := rfl

theorem countIn_cons (s : String) (t cs : List String) :
    countIn (s :: t) cs = countIn t cs + (if isOneOf s cs then 1 else 0) := by
  simp [countIn, List.countP_cons]

theorem countIn_le_length (images cs : List String) :
    countIn images cs ≤ images.length :=
  List.countP_le_length _

/-- Rows counted as `APPROVED` or `REJECTED` split into the two
disjoint per-status counts. -/
theorem countIn_approved_rejected (images : List String) :
    countIn images ["APPROVED", "REJECTED"] =
      countIn images ["APPROVED"] + countIn images ["REJECTED"] := by
  induction images with
  | nil => rfl
  | cons s t ih =>
      rw [countIn_cons, countIn_cons, countIn_cons, ih]
      by_cases h1 : s = "APPROVED"
      · simp [isOneOf, h1]; omega
      · by_cases h2 : s = "REJECTED"
        · simp [isOneOf, h1, h2]; omega
        · simp [isOneOf, h1, h2]

/-- C1 counterexample: a direct status write `UPLOADED → SUBMITTED` on an
`Image` succeeds and changes the status; no `InvalidTransitionError`
exists anywhere in the sources, and the write is total (it cannot fail). -/
theorem image_uploaded_to_submitted_succeeds :
    (Image.setStatus ⟨"UPLOADED"⟩ "SUBMITTED").status = "SUBMITTED" ∧
      ("SUBMITTED" : String) ≠ "UPLOADED" := by
  refine ⟨rfl, ?_⟩
  decide

/-- C1 (amended): the `Image` model declares the ten statuses but
enforces no transition table: a status write always succeeds and sets
exactly the requested value regardless of the current status, and the
declared vocabulary uses `YOLO_PROCESSED` (not `DETECTED`) and contains
no `DETECTION_FAILED` state. -/
theorem image_status_writes_unrestricted (img : Image) (s : String) :
    (Image.setStatus img s).status = s ∧
      Image.IMAGE_STATUS.contains "DETECTED" = false ∧
      Image.IMAGE_STATUS.contains "DETECTION_FAILED" = false ∧
      Image.IMAGE_STATUS.contains "YOLO_PROCESSED" = true := by
  refine ⟨rfl, ?_, ?_, ?_⟩ <;> decide

/-- C2 counterexample: `update_progress` recomputes `assigned_count`
from the child rows alone and never reads `total_images`, so a batch
declaring `total_images = 1` whose two child images are both `ASSIGNED`
ends with `assigned_count = 2 > total_images`. -/
theorem update_progress_assigned_can_exceed_total :
    (ImageBatch.update_progress ⟨1, 0, 0, 0, 0⟩ ["ASSIGNED", "ASSIGNED"]).assigned_count = 2 ∧
      ¬ (ImageBatch.update_progress ⟨1, 0, 0, 0, 0⟩
          ["ASSIGNED", "ASSIGNED"]).assigned_count ≤
        (ImageBatch.update_progress ⟨1, 0, 0, 0, 0⟩
          ["ASSIGNED", "ASSIGNED"]).total_images := by
  constructor
  · rfl
  · decide

/-- C2 (amended): after every `ImageBatch.update_progress`,
`completed_count = approved_count + rejected_count` holds
unconditionally, and `assigned_count ≤ total_images` holds provided the
batch has at most `total_images` child images (a bound `update_progress`
itself does not enforce). -/
theorem update_progress_counter_invariants (b : ImageBatch) (images : List String)
    (h : images.length ≤ b.total_images) :
    (b.update_progress images).completed_count =
        (b.update_progress images).approved_count +
          (b.update_progress images).rejected_count ∧
      (b.update_progress images).assigned_count ≤
        (b.update_progress images).total_images := by
  constructor
  · exact countIn_approved_rejected images
  · exact le_trans (countIn_le_length images _) h

/-- Witness for `update_progress_counter_invariants` at a concrete
batch: three children, one `APPROVED`, one `REJECTED`, one `ASSIGNED`. -/
theorem update_progress_counter_invariants_witness :
    (["APPROVED", "REJECTED", "ASSIGNED"] : List String).length ≤
        (⟨3, 0, 0, 0, 0⟩ : ImageBatch).total_images ∧
      (ImageBatch.update_progress ⟨3, 0, 0, 0, 0⟩
          ["APPROVED", "REJECTED", "ASSIGNED"]).completed_count =
        (ImageBatch.update_progress ⟨3, 0, 0, 0, 0⟩
            ["APPROVED", "REJECTED", "ASSIGNED"]).approved_count +
          (ImageBatch.update_progress ⟨3, 0, 0, 0, 0⟩
              ["APPROVED", "REJECTED", "ASSIGNED"]).rejected_count ∧
      (ImageBatch.update_progress ⟨3, 0, 0, 0, 0⟩
          ["APPROVED", "REJECTED", "ASSIGNED"]).assigned_count ≤
        (ImageBatch.update_progress ⟨3, 0, 0, 0, 0⟩
            ["APPROVED", "REJECTED", "ASSIGNED"]).total_images := by
  refine ⟨by decide, ?_⟩
  exact update_progress_counter_invariants ⟨3, 0, 0, 0, 0⟩
    ["APPROVED", "REJECTED", "ASSIGNED"] (by decide)

/-- C3 counterexample: a batch created with `total_files = 1` that in
fact holds two uploaded children (the upload endpoint never checks the
declared total) is marked `completed` by the per-image task as soon as
the counters satisfy `processed_files + failed_files == total_files`,
while its second child is still in the non-terminal `uploaded` status. -/
theorem batch_completed_while_child_pending :
    (taskImageSuccess ⟨⟨1, 2, 0, 0, "processing"⟩, ["uploaded", "uploaded"]⟩ 0).batch.status
        = "completed" ∧
      allChildrenTerminal
        (taskImageSuccess ⟨⟨1, 2, 0, 0, "processing"⟩, ["uploaded", "uploaded"]⟩ 0).images
        = false := by
  constructor <;> decide

/-- C3 (amended): the task marks the batch `completed` exactly when the
incrementally accumulated counters reach `total_files` (or it was
already `completed`); the decision reads only the stored batch counters
and is identical for any two states sharing the same batch row, whatever
their child image statuses. -/
theorem batch_completed_from_counters_only (st st' : UploadState) (i j : Nat)
    (hb : st.batch = st'.batch) :
    ((taskImageSuccess st i).batch.status = "completed" ↔
        st.batch.processed_files + 1 + st.batch.failed_files = st.batch.total_files ∨
          st.batch.status = "completed") ∧
      (taskImageSuccess st i).batch = (taskImageSuccess st' j).batch := by
  constructor
  · by_cases h : st.batch.processed_files + 1 + st.batch.failed_files = st.batch.total_files
    · simp [taskImageSuccess, beq_iff_eq, h]
    · simp [taskImageSuccess, beq_iff_eq, h]
  · simp [taskImageSuccess, hb]

/-- Witness for `batch_completed_from_counters_only`: the same batch row
with two different child lists yields the same batch outcome. -/
theorem batch_completed_from_counters_only_witness :
    (UploadState.mk ⟨2, 2, 0, 0, "processing"⟩ ["uploaded", "uploaded"]).batch
        = (UploadState.mk ⟨2, 2, 0, 0, "processing"⟩ ["completed", "completed"]).batch ∧
      (taskImageSuccess ⟨⟨2, 2, 0, 0, "processing"⟩, ["uploaded", "uploaded"]⟩ 0).batch
        = (taskImageSuccess ⟨⟨2, 2, 0, 0, "processing"⟩, ["completed", "completed"]⟩ 1).batch :=
  ⟨rfl, (batch_completed_from_counters_only
    ⟨⟨2, 2, 0, 0, "processing"⟩, ["uploaded", "uploaded"]⟩
    ⟨⟨2, 2, 0, 0, "processing"⟩, ["completed", "completed"]⟩ 0 1 rfl).2⟩

theorem attemptsAllFail_batch (st : UploadState) (i n : Nat) :
    (attemptsAllFail st i n).batch.failed_files = st.batch.failed_files + n ∧
      (attemptsAllFail st i n).batch.processed_files = st.batch.processed_files ∧
      (attemptsAllFail st i n).batch.total_files = st.batch.total_files ∧
      (attemptsAllFail st i n).batch.uploaded_files = st.batch.uploaded_files ∧
      (attemptsAllFail st i n).batch.status = st.batch.status := by
  induction n generalizing st with
  | zero => simp [attemptsAllFail]
  | succ n ih =>
      obtain ⟨h1, h2, h3, h4, h5⟩ := ih (taskImageFailure st i)
      simp only [attemptsAllFail]
      refine ⟨?_, h2, h3, h4, h5⟩
      rw [h1]
      simp [taskImageFailure]
      omega

theorem attemptsAllFail_images (i : Nat) (n : Nat) :
    ∀ st : UploadState, (attemptsAllFail st i (n + 1)).images = st.images.set i "failed" := by
  induction n with
  | zero =>
      intro st
      simp [attemptsAllFail, taskImageFailure, List.set_set]
  | succ n ih =>
      intro st
      have h := ih (taskImageFailure st i)
      simp only [attemptsAllFail] at h ⊢
      rw [h]
      simp [taskImageFailure, List.set_set]

/-- C7 counterexample: after the initial attempt and all three retries
fail, the image ends in the legacy status `failed` — the sources define
no `DETECTION_FAILED` state anywhere (in particular not in
`Image.IMAGE_STATUS`) — and the retry delays 60, 120, 180 seconds grow
linearly, not exponentially (they violate the geometric-progression law
`d0 * d2 = d1 * d1` every exponential schedule satisfies). -/
theorem exhausted_retries_leave_failed_not_detection_failed :
    ((attemptsAllFail ⟨⟨5, 5, 0, 0, "processing"⟩,
          ["uploaded", "uploaded", "uploaded", "uploaded", "uploaded"]⟩ 0
        (max_retries + 1)).images)[0]? = some "failed" ∧
      ("failed" : String) ≠ "DETECTION_FAILED" ∧
      Image.IMAGE_STATUS.contains "DETECTION_FAILED" = false ∧
      retry_countdown 0 * retry_countdown 2 ≠ retry_countdown 1 * retry_countdown 1 := by
  refine ⟨by decide, by decide, by decide, by decide⟩

/-- C7 (amended): detection failures are retried up to the fixed bound
`max_retries = 3` with linearly growing delays `[60, 120, 180]`;
exhausting the retries leaves the image in the legacy terminal status
`failed`, leaves every sibling image untouched, and changes the batch
row only by adding one `failed_files` increment per failed attempt —
`processed_files`, `total_files`, `uploaded_files` and the batch status
are untouched. -/
theorem detection_retry_bound_and_outcome (st : UploadState) (i : Nat)
    (hi : i < st.images.length) :
    ((attemptsAllFail st i (max_retries + 1)).images)[i]? = some "failed" ∧
      (∀ j, j ≠ i → ((attemptsAllFail st i (max_retries + 1)).images)[j]? = st.images[j]?) ∧
      (attemptsAllFail st i (max_retries + 1)).batch.failed_files
        = st.batch.failed_files + (max_retries + 1) ∧
      (attemptsAllFail st i (max_retries + 1)).batch.processed_files
        = st.batch.processed_files ∧
      (attemptsAllFail st i (max_retries + 1)).batch.status = st.batch.status ∧
      retryDelays = [60, 120, 180] := by
  obtain ⟨h1, h2, _, _, h5⟩ := attemptsAllFail_batch st i (max_retries + 1)
  have him := attemptsAllFail_images i max_retries st
  refine ⟨?_, ?_, h1, h2, h5, by decide⟩
  · rw [him]
    exact List.getElem?_set_eq_of_lt _ hi
  · intro j hj
    rw [him]
    exact List.getElem?_set_ne (fun h => hj h.symm)

/-- Witness for `detection_retry_bound_and_outcome` on a two-image
batch: index 0 exhausts detection, index 1 is untouched. -/
theorem detection_retry_bound_and_outcome_witness :
    (0 < (UploadState.mk ⟨2, 2, 0, 0, "processing"⟩ ["uploaded", "uploaded"]).images.length) ∧
      ((attemptsAllFail ⟨⟨2, 2, 0, 0, "processing"⟩, ["uploaded", "uploaded"]⟩ 0
          (max_retries + 1)).images)[0]? = some "failed" ∧
      ((attemptsAllFail ⟨⟨2, 2, 0, 0, "processing"⟩, ["uploaded", "uploaded"]⟩ 0
          (max_retries + 1)).images)[1]? = some "uploaded" ∧
      (attemptsAllFail ⟨⟨2, 2, 0, 0, "processing"⟩, ["uploaded", "uploaded"]⟩ 0
          (max_retries + 1)).batch.failed_files = 4 := by
  have h := detection_retry_bound_and_outcome
    ⟨⟨2, 2, 0, 0, "processing"⟩, ["uploaded", "uploaded"]⟩ 0 (by decide)
  refine ⟨by decide, h.1, ?_, ?_⟩
  · have h2 := h.2.1 1 (by decide)
    rw [h2]
    decide
  · rw [h.2.2.1]
    decide

theorem syncImageStep_counters (b : UploadBatchRec) (ok : Bool) :
    (syncImageStep b ok).1.failed_files = b.failed_files + (if ok then 0 else 1) ∧
      (syncImageStep b ok).1.processed_files = b.processed_files + (if ok then 1 else 0) := by
  cases ok with
  | false => simp [syncImageStep]
  | true =>
      by_cases h : b.processed_files + 1 + b.failed_files = b.total_files <;>
        simp [syncImageStep, beq_iff_eq, h]

theorem processBatchSyncLoop_spec (oks : List Bool) :
    ∀ b : UploadBatchRec,
      (processBatchSyncLoop b oks).2
          = oks.map (fun ok => if ok then "completed" else "failed") ∧
        (processBatchSyncLoop b oks).1.failed_files
          = b.failed_files + oks.countP (fun ok => !ok) ∧
        (processBatchSyncLoop b oks).1.processed_files
          = b.processed_files + oks.countP (fun ok => ok) := by
  induction oks with
  | nil => intro b; simp [processBatchSyncLoop]
  | cons ok rest ih =>
      intro b
      obtain ⟨m1, m2, m3⟩ := ih (syncImageStep b ok).1
      obtain ⟨c1, c2⟩ := syncImageStep_counters b ok
      simp only [processBatchSyncLoop]
      refine ⟨?_, ?_, ?_⟩
      · rw [List.map_cons, ← m1]
        cases ok <;> simp [syncImageStep]
      · rw [m2, c1, List.countP_cons]
        cases ok <;> simp <;> omega
      · rw [m3, c2, List.countP_cons]
        cases ok <;> simp <;> omega

/-- C8: in the synchronous batch-processing loop each image's final
status is a function of its own detection outcome alone — `completed`
on success, `failed` on failure — and `failed_files` grows by exactly
the number of failures, so one image's failure neither blocks nor rolls
back its siblings; in particular, in a five-image batch whose third
image fails detection, the other four end `completed` and the batch's
failure counter is exactly 1. -/
theorem one_failed_image_does_not_block_siblings :
    (∀ (b : UploadBatchRec) (oks : List Bool),
        (processBatchSyncLoop b oks).2
            = oks.map (fun ok => if ok then "completed" else "failed") ∧
          (processBatchSyncLoop b oks).1.failed_files
            = b.failed_files + oks.countP (fun ok => !ok) ∧
          (processBatchSyncLoop b oks).1.processed_files
            = b.processed_files + oks.countP (fun ok => ok)) ∧
      (processBatchSyncLoop ⟨5, 5, 0, 0, "processing"⟩
          [true, true, false, true, true]).2
        = ["completed", "completed", "failed", "completed", "completed"] ∧
      (processBatchSyncLoop ⟨5, 5, 0, 0, "processing"⟩
          [true, true, false, true, true]).1.failed_files = 1 ∧
      (processBatchSyncLoop ⟨5, 5, 0, 0, "processing"⟩
          [true, true, false, true, true]).1.processed_files = 4 :=
  ⟨fun b oks => processBatchSyncLoop_spec oks b, by decide, by decide, by decide⟩

theorem verificationCountFor_zero_iff (table : List VerificationRow) (annId : Nat) :
    verificationCountFor table annId = 0 ↔
      table.any (fun v => v.annotation_id == annId) = false := by
  rw [verificationCountFor, List.countP_eq_zero]
  constructor
  · intro h
    rw [List.any_eq_false]
    intro v hv
    simpa using h v hv
  · intro h v hv
    rw [List.any_eq_false] at h
    simpa using h v hv

/-- C4: on an annotation with no Verification yet, `decide` succeeds and
creates exactly one Verification row for it, and a second `decide` on
the same annotation fails with `AlreadyVerified`, leaving the table with
exactly that one row. -/
theorem decide_once_then_already_verified (table : List VerificationRow)
    (annId verifierId verifierId2 : Nat) (d d2 : String)
    (h : verificationCountFor table annId = 0) :
    decideVerification table annId verifierId d
        = Except.ok (⟨annId, verifierId, d⟩ :: table) ∧
      verificationCountFor (⟨annId, verifierId, d⟩ :: table) annId = 1 ∧
      decideVerification (⟨annId, verifierId, d⟩ :: table) annId verifierId2 d2
        = Except.error "AlreadyVerified" := by
  have hany := (verificationCountFor_zero_iff table annId).1 h
  refine ⟨?_, ?_, ?_⟩
  · simp [decideVerification, hany]
  · rw [verificationCountFor, List.countP_cons]
    rw [verificationCountFor] at h
    simp [h]
  · simp [decideVerification]

/-- Witness for `decide_once_then_already_verified`: an empty table,
annotation 1, two verifiers. -/
theorem decide_once_then_already_verified_witness :
    verificationCountFor [] 1 = 0 ∧
      decideVerification [] 1 7 "APPROVED"
          = Except.ok [⟨1, 7, "APPROVED"⟩] ∧
      verificationCountFor [⟨1, 7, "APPROVED"⟩] 1 = 1 ∧
      decideVerification [⟨1, 7, "APPROVED"⟩] 1 8 "REJECTED"
        = Except.error "AlreadyVerified" := by
  refine ⟨by decide, ?_⟩
  exact decide_once_then_already_verified [] 1 7 8 "APPROVED" "REJECTED" (by decide)

/-- C5: while an image holds a non-terminal annotation, any further
`submit` for that image fails with `DuplicateSubmission` (writing
nothing, so the existing annotation stays the sole active one), and a
successful `submit` never changes the number of non-terminal
annotations of the image, so at most one non-terminal annotation per
image is invariant under `submit`. -/
theorem duplicate_submission_guard (table : List AnnotationRow) (imageId newId : Nat) :
    (hasActiveFor table imageId = true →
        submit table imageId newId = Except.error "DuplicateSubmission") ∧
      (∀ t', submit table imageId newId = Except.ok t' →
        activeCountFor t' imageId = activeCountFor table imageId) := by
  constructor
  · intro h
    simp [submit, h]
  · intro t' h
    by_cases hAct : hasActiveFor table imageId
    · simp [submit, hAct] at h
    · cases hh : (annsFor table imageId).head? with
      | none =>
          simp [submit, hAct, hh] at h
          subst h
          simp [activeCountFor, List.countP_cons, activeStatus, isOneOf]
      | some prev =>
          simp [submit, hAct, hh] at h
          subst h
          simp [activeCountFor, List.countP_cons, activeStatus, isOneOf]

/-- Witness for `duplicate_submission_guard`: image 5 holds a `DRAFT`
annotation, so a second submission is rejected. -/
theorem duplicate_submission_guard_witness :
    hasActiveFor [⟨1, 5, 1, false, none, "DRAFT"⟩] 5 = true ∧
      submit [⟨1, 5, 1, false, none, "DRAFT"⟩] 5 2
        = Except.error "DuplicateSubmission" :=
  ⟨by decide, (duplicate_submission_guard [⟨1, 5, 1, false, none, "DRAFT"⟩] 5 2).1 (by decide)⟩

theorem chainRow_fields (imageId k : Nat) (s : String) (hk : 1 ≤ k) :
    (chainRow imageId k s).id = k ∧
      (chainRow imageId k s).image_id = imageId ∧
      (chainRow imageId k s).version = k ∧
      (chainRow imageId k s).status = s ∧
      (chainRow imageId k s).original_annotation_id
        = (if k ≤ 1 then none else some 1) := by
  by_cases h : k ≤ 1
  · have : k = 1 := le_antisymm h hk
    subst this
    simp [chainRow]
  · simp [chainRow, h]

theorem rootIdOf_chainRow (imageId k : Nat) (s : String) :
    rootIdOf (chainRow imageId k s) = 1 := by
  by_cases h : k ≤ 1 <;> simp [chainRow, rootIdOf, h]

theorem setStatus_chainRow (imageId k : Nat) (s s' : String) :
    { chainRow imageId k s with status := s' } = chainRow imageId k s' := by
  by_cases h : k ≤ 1 <;> simp [chainRow, h]

theorem closedChainTail_mem (imageId : Nat) :
    ∀ m, ∀ a ∈ closedChainTail imageId m,
      ∃ k, 1 ≤ k ∧ k ≤ m ∧ a = chainRow imageId k "REVISION_REQUESTED" := by
  intro m
  induction m with
  | zero => intro a ha; simp [closedChainTail] at ha
  | succ m ih =>
      intro a ha
      rw [closedChainTail] at ha
      rcases List.mem_cons.1 ha with h | h
      · exact ⟨m + 1, by omega, le_refl _, h⟩
      · obtain ⟨k, h1, h2, h3⟩ := ih a h
        exact ⟨k, h1, by omega, h3⟩

theorem setStatus_closedChainTail (imageId : Nat) (s : String) :
    ∀ m j, m < j →
      setAnnotationStatus (closedChainTail imageId m) j s = closedChainTail imageId m := by
  intro m
  induction m with
  | zero => intro j _; rfl
  | succ m ih =>
      intro j hj
      obtain ⟨hid, -, -, -, -⟩ :=
        chainRow_fields imageId (m + 1) "REVISION_REQUESTED" (by omega)
      have hne : ((chainRow imageId (m + 1) "REVISION_REQUESTED").id == j) = false := by
        rw [hid]
        simp
        omega
      have ht := ih j (by omega)
      rw [closedChainTail]
      simp only [setAnnotationStatus, List.map_cons, hne]
      rw [setAnnotationStatus] at ht
      simpa using ht

theorem hasActiveFor_closedChainTail (imageId : Nat) (m : Nat) :
    hasActiveFor (closedChainTail imageId m) imageId = false := by
  rw [hasActiveFor, List.any_eq_false]
  intro a ha
  obtain ⟨k, hk1, _, hEq⟩ := closedChainTail_mem imageId m a ha
  obtain ⟨-, -, -, hst, -⟩ := chainRow_fields imageId k "REVISION_REQUESTED" hk1
  subst hEq
  simp [hst, activeStatus, isOneOf]

theorem annsFor_closedChainTail (imageId : Nat) (m : Nat) :
    annsFor (closedChainTail imageId m) imageId = closedChainTail imageId m := by
  rw [annsFor, List.filter_eq_self]
  intro a ha
  obtain ⟨k, hk1, _, hEq⟩ := closedChainTail_mem imageId m a ha
  obtain ⟨-, him, -, -, -⟩ := chainRow_fields imageId k "REVISION_REQUESTED" hk1
  subst hEq
  simp [him]

theorem maxVersionFor_cons (a : AnnotationRow) (t : List AnnotationRow) (imageId : Nat)
    (h : a.image_id = imageId) :
    maxVersionFor (a :: t) imageId = Nat.max a.version (maxVersionFor t imageId) := by
  simp [maxVersionFor, annsFor, List.filter_cons, h]

theorem maxVersionFor_closedChainTail (imageId : Nat) :
    ∀ m, maxVersionFor (closedChainTail imageId m) imageId = m := by
  intro m
  induction m with
  | zero => rfl
  | succ m ih =>
      obtain ⟨-, him, hver, -, -⟩ :=
        chainRow_fields imageId (m + 1) "REVISION_REQUESTED" (by omega)
      rw [closedChainTail, maxVersionFor_cons _ _ _ him, hver, ih]
      exact Nat.max_eq_left (Nat.le_succ m)

theorem annsFor_cons (a : AnnotationRow) (t : List AnnotationRow) (imageId : Nat)
    (h : a.image_id = imageId) :
    annsFor (a :: t) imageId = a :: annsFor t imageId := by
  simp [annsFor, List.filter_cons, h]

theorem revisionCycle_ok (table : List AnnotationRow) (imageId newId : Nat)
    (prev : AnnotationRow) (t' : List AnnotationRow)
    (h : (annsFor table imageId).head? = some prev)
    (hs : submit (setAnnotationStatus table prev.id "REVISION_REQUESTED") imageId newId
      = Except.ok t') :
    revisionCycle table imageId newId = t' := by
  simp only [revisionCycle, h, hs]

theorem chainAfter_eq_closedChain (imageId : Nat) :
    ∀ n, chainAfter imageId n = closedChain imageId n := by
  intro n
  induction n with
  | zero =>
      simp [chainAfter, submit, hasActiveFor, annsFor, closedChain, closedChainTail, chainRow]
  | succ n ih =>
      have him : (chainRow imageId (n + 1) "SUBMITTED").image_id = imageId :=
        (chainRow_fields imageId (n + 1) "SUBMITTED" (by omega)).2.1
      have hid : (chainRow imageId (n + 1) "SUBMITTED").id = n + 1 :=
        (chainRow_fields imageId (n + 1) "SUBMITTED" (by omega)).1
      have hanns : annsFor (closedChain imageId n) imageId = closedChain imageId n := by
        rw [closedChain, annsFor_cons _ _ _ him, annsFor_closedChainTail]
      have hmarked : setAnnotationStatus (closedChain imageId n) (n + 1) "REVISION_REQUESTED"
          = closedChainTail imageId (n + 1) := by
        have h2 := setStatus_closedChainTail imageId "REVISION_REQUESTED" n (n + 1)
          (Nat.lt_succ_self n)
        rw [closedChain, setAnnotationStatus, List.map_cons]
        rw [setAnnotationStatus] at h2
        rw [h2, show closedChainTail imageId (n + 1)
          = chainRow imageId (n + 1) "REVISION_REQUESTED" :: closedChainTail imageId n from rfl]
        congr 1
        rcases Nat.eq_zero_or_pos n with hn | hn
        · subst hn
          simp [chainRow]
        · have hc : ¬ (n + 1 ≤ 1) := by omega
          simp [chainRow, hc]
      have hsub : submit (closedChainTail imageId (n + 1)) imageId (n + 2)
          = Except.ok (closedChain imageId (n + 1)) := by
        have hact := hasActiveFor_closedChainTail imageId (n + 1)
        have hANF := annsFor_closedChainTail imageId (n + 1)
        have hhead : (closedChainTail imageId (n + 1)).head?
            = some (chainRow imageId (n + 1) "REVISION_REQUESTED") := rfl
        have hroot := rootIdOf_chainRow imageId (n + 1) "REVISION_REQUESTED"
        have hmax := maxVersionFor_closedChainTail imageId (n + 1)
        have hc : ¬ (n + 2 ≤ 1) := by omega
        simp only [submit, hact, Bool.false_eq_true, if_false, hANF, hhead, hmax, hroot]
        rw [show closedChain imageId (n + 1)
          = chainRow imageId (n + 2) "SUBMITTED" :: closedChainTail imageId (n + 1) from rfl]
        simp [chainRow, hc]
      have hprev : (annsFor (closedChain imageId n) imageId).head?
          = some (chainRow imageId (n + 1) "SUBMITTED") := by
        rw [hanns]
        rfl
      have hs2 : submit (setAnnotationStatus (closedChain imageId n)
            (chainRow imageId (n + 1) "SUBMITTED").id "REVISION_REQUESTED") imageId (n + 2)
          = Except.ok (closedChain imageId (n + 1)) := by
        rw [hid, hmarked]
        exact hsub
      simp only [chainAfter]
      rw [ih]
      exact revisionCycle_ok (closedChain imageId n) imageId (n + 2)
        (chainRow imageId (n + 1) "SUBMITTED") (closedChain imageId (n + 1)) hprev hs2

theorem maxVersionFor_closedChain (imageId n : Nat) :
    maxVersionFor (closedChain imageId n) imageId = n + 1 := by
  have him : (chainRow imageId (n + 1) "SUBMITTED").image_id = imageId :=
    (chainRow_fields imageId (n + 1) "SUBMITTED" (by omega)).2.1
  have hver : (chainRow imageId (n + 1) "SUBMITTED").version = n + 1 :=
    (chainRow_fields imageId (n + 1) "SUBMITTED" (by omega)).2.2.1
  rw [closedChain, maxVersionFor_cons _ _ _ him, hver, maxVersionFor_closedChainTail]
  exact Nat.max_eq_left (Nat.le_succ n)

theorem chainRow_lineage (imageId k : Nat) (s : String) (hk : 1 ≤ k) :
    (2 ≤ (chainRow imageId k s).version →
        (chainRow imageId k s).original_annotation_id = some 1) ∧
      ((chainRow imageId k s).version = 1 →
        (chainRow imageId k s).original_annotation_id = none ∧
          (chainRow imageId k s).id = 1) := by
  by_cases h : k ≤ 1
  · have : k = 1 := le_antisymm h hk
    subst this
    simp [chainRow]
  · constructor
    · intro _
      simp [chainRow, h]
    · intro hv
      rw [(chainRow_fields imageId k s hk).2.2.1] at hv
      omega

/-- C6: after an initial submission and `n` sequential revision cycles
on one image, the newest row is the `(n+1)`-st submission; every
revision row (version ≥ 2) has its `original_annotation` pointing at
the single version-1 root (row id 1) rather than its immediate
predecessor; the version-1 row is the root (no back-reference); and
each submission's version is the prior maximum for the image plus one
(the maximum rises from `n + 1` to `n + 2` across a cycle). -/
theorem revision_chain_root_and_versions (imageId n : Nat) :
    (chainAfter imageId n).head? = some (chainRow imageId (n + 1) "SUBMITTED") ∧
      (∀ a ∈ chainAfter imageId n, 2 ≤ a.version →
        a.original_annotation_id = some 1) ∧
      (∀ a ∈ chainAfter imageId n, a.version = 1 →
        a.original_annotation_id = none ∧ a.id = 1) ∧
      maxVersionFor (chainAfter imageId n) imageId = n + 1 ∧
      maxVersionFor (chainAfter imageId (n + 1)) imageId
        = maxVersionFor (chainAfter imageId n) imageId + 1 := by
  have hmem : ∀ a ∈ chainAfter imageId n, ∃ k s, 1 ≤ k ∧ a = chainRow imageId k s := by
    rw [chainAfter_eq_closedChain]
    intro a ha
    rcases List.mem_cons.1 ha with h | h
    · exact ⟨n + 1, "SUBMITTED", by omega, h⟩
    · obtain ⟨k, hk1, _, hEq⟩ := closedChainTail_mem imageId n a h
      exact ⟨k, "REVISION_REQUESTED", hk1, hEq⟩
  refine ⟨?_, ?_, ?_, ?_, ?_⟩
  · rw [chainAfter_eq_closedChain]
    rfl
  · intro a ha hv
    obtain ⟨k, s, hk, hEq⟩ := hmem a ha
    subst hEq
    exact (chainRow_lineage imageId k s hk).1 hv
  · intro a ha hv
    obtain ⟨k, s, hk, hEq⟩ := hmem a ha
    subst hEq
    exact (chainRow_lineage imageId k s hk).2 hv
  · rw [chainAfter_eq_closedChain, maxVersionFor_closedChain]
  · rw [chainAfter_eq_closedChain, chainAfter_eq_closedChain,
      maxVersionFor_closedChain, maxVersionFor_closedChain]

/-- Witness for `revision_chain_root_and_versions`: after two revision
cycles on image 5, the version-3 row points at root id 1 and the
maximum version is 3. -/
theorem revision_chain_root_and_versions_witness :
    (⟨3, 5, 3, true, some 1, "SUBMITTED"⟩ : AnnotationRow) ∈ chainAfter 5 2 ∧
      2 ≤ (⟨3, 5, 3, true, some 1, "SUBMITTED"⟩ : AnnotationRow).version ∧
      (⟨3, 5, 3, true, some 1, "SUBMITTED"⟩ : AnnotationRow).original_annotation_id
        = some 1 ∧
      maxVersionFor (chainAfter 5 2) 5 = 3 := by
  refine ⟨by decide, by decide, ?_, ?_⟩
  · exact (revision_chain_root_and_versions 5 2).2.1 _ (by decide) (by decide)
  · exact (revision_chain_root_and_versions 5 2).2.2.2.1

/-- C9: on every submission within an assignment (with a positive image
total), progress is recomputed as
`progress_percentage = images_completed / images_total * 100`, where
`images_completed` is the count of the assignment's annotations in
`SUBMITTED` status after the submission. -/
theorem progress_recomputed_on_submission (a : BatchAssignmentRec)
    (annStatuses : List String) (h : 0 < a.images_total) :
    (submitAndRecompute a annStatuses).images_completed
        = countIn ("SUBMITTED" :: annStatuses) ["SUBMITTED"] ∧
      (submitAndRecompute a annStatuses).progress_percentage
        = ((countIn ("SUBMITTED" :: annStatuses) ["SUBMITTED"] : Rat)
            / (a.images_total : Rat)) * 100 ∧
      (submitAndRecompute a annStatuses).images_total = a.images_total := by
  refine ⟨?_, ?_, ?_⟩ <;>
    simp [submitAndRecompute, BatchAssignmentRec.update_progress, h]

/-- Witness for `progress_recomputed_on_submission`: a 4-image
assignment with one prior submitted annotation reaches 50%. -/
theorem progress_recomputed_on_submission_witness :
    0 < (BatchAssignmentRec.mk 4 0 0).images_total ∧
      (submitAndRecompute ⟨4, 0, 0⟩ ["SUBMITTED", "DRAFT"]).images_completed
        = countIn ["SUBMITTED", "SUBMITTED", "DRAFT"] ["SUBMITTED"] ∧
      (submitAndRecompute ⟨4, 0, 0⟩ ["SUBMITTED", "DRAFT"]).progress_percentage
        = ((countIn ["SUBMITTED", "SUBMITTED", "DRAFT"] ["SUBMITTED"] : Rat) / (4 : Rat)) * 100 ∧
      (submitAndRecompute ⟨4, 0, 0⟩ ["SUBMITTED", "DRAFT"]).progress_percentage = 50 := by
  have h := progress_recomputed_on_submission ⟨4, 0, 0⟩ ["SUBMITTED", "DRAFT"] (by decide)
  refine ⟨by decide, h.1, h.2.1, ?_⟩
  rw [h.2.1, show countIn ["SUBMITTED", "SUBMITTED", "DRAFT"] ["SUBMITTED"] = 2 from rfl]
  norm_num

/-- C10: any `upload_image` request whose file exceeds 10 MB or whose
content type is not one of image/jpeg, image/png, image/webp, image/bmp
is answered 400 with the server state untouched: nothing is written to
storage, no `ImageUpload` row is created, and the batch's
`uploaded_files` counter and status are unchanged. -/
theorem oversized_or_bad_type_upload_rejected (env : UploadEnv) (req : UploadReq)
    (f : UploadedFile) (hf : req.file = some f)
    (hbad : 10 * 1024 * 1024 < f.size ∨ isOneOf f.content_type allowed_types = false) :
    (upload_image env req).1 = 400 ∧ (upload_image env req).2 = env := by
  cases hb : req.batch_id with
  | none => simp [upload_image, hb]
  | some bid =>
      cases hi : req.file_id with
      | none => simp [upload_image, hb, hi]
      | some fid =>
          rcases hbad with hsz | hct
          · simp [upload_image, hb, hi, hf, hsz]
          · by_cases hsz : 10 * 1024 * 1024 < f.size
            · simp [upload_image, hb, hi, hf, hsz]
            · simp [upload_image, hb, hi, hf, hsz, hct]

/-- Witness for `oversized_or_bad_type_upload_rejected`: an 11 MB JPEG
upload into an existing pending batch is answered 400 and the state is
untouched. -/
theorem oversized_upload_rejected_witness :
    ((UploadReq.mk (some "b1") (some "f1") (some ⟨"a.jpg", 11534336, "image/jpeg"⟩)).file
        = some ⟨"a.jpg", 11534336, "image/jpeg"⟩) ∧
      (10 * 1024 * 1024 < 11534336 ∨
        isOneOf "image/jpeg" allowed_types = false) ∧
      (upload_image ⟨true, ⟨3, 0, 0, 0, "pending"⟩, 0, 0⟩
          ⟨some "b1", some "f1", some ⟨"a.jpg", 11534336, "image/jpeg"⟩⟩).1 = 400 ∧
      (upload_image ⟨true, ⟨3, 0, 0, 0, "pending"⟩, 0, 0⟩
          ⟨some "b1", some "f1", some ⟨"a.jpg", 11534336, "image/jpeg"⟩⟩).2
        = ⟨true, ⟨3, 0, 0, 0, "pending"⟩, 0, 0⟩ := by
  refine ⟨rfl, by decide, ?_⟩
  exact oversized_or_bad_type_upload_rejected
    ⟨true, ⟨3, 0, 0, 0, "pending"⟩, 0, 0⟩
    ⟨some "b1", some "f1", some ⟨"a.jpg", 11534336, "image/jpeg"⟩⟩
    ⟨"a.jpg", 11534336, "image/jpeg"⟩ rfl (Or.inl (by decide))
